import Mathlib

/-!
# Verification of the Jobly core: guard chain and parameterized-query builders

Shallow embedding of the authorization middleware (`middleware/auth.js`:
`ensureLoggedIn`, `ensureAdmin`, `ensureOwnerOrAdmin`), the partial-update
clause builder (`helpers/sql.js`: `sqlForPartialUpdate`) and the filter
clause builder (the filter-construction part of `Job.findAll` in
`models/job.js`), together with theorems settling the specification's
claims about them.

JavaScript values that flow through these functions are modelled by
`JSVal`; JS numbers (IEEE floats) are abstracted to integers-or-NaN, which
is sufficient because no verified property depends on numeric arithmetic.
Objects used as sparse maps are modelled as insertion-ordered association
lists (JS objects preserve string-key insertion order), and translation
tables as `String → Option String` (`none` = property absent, i.e.
`undefined`).
-/

namespace Jobly

/-- A JavaScript primitive value as it appears in update specs, filter
specs and parameter lists. `nan` is the result of a failed `Number(...)`
coercion. -/
inductive JSVal where
  | str : String → JSVal
  | num : Int → JSVal
  | bool : Bool → JSVal
  | null : JSVal
  | nan : JSVal
  deriving DecidableEq, Repr

/-- JS `Number(v)` coercion as used by `Job.findAll` on `minSalary`
(floats abstracted to integers-or-NaN; no claim depends on the numeric
details). `Number("") = 0`, `Number(true) = 1`, `Number(null) = 0`,
non-numeric strings give NaN. -/
def jsNumber : JSVal → JSVal
  | .num n => .num n
  | .bool true => .num 1
  | .bool false => .num 0
  | .null => .num 0
  | .nan => .nan
  | .str s =>
      match s.trim.toInt? with
      | some n => .num n
      | none => if s.trim = "" then .num 0 else .nan

/-- The error classes from `expressError.js` raised by the verified core.
`badRequest` is `BadRequestError` (HTTP 400). -/
inductive JoblyError where
  | badRequest : String → JoblyError
  deriving DecidableEq, Repr

/-! ## Partial-update clause builder (`helpers/sql.js`) -/

/-- Result of `sqlForPartialUpdate`: the source returns
`{ setCols: cols.join(", "), values }`; we keep the fragment list `cols`
(the array built by `keys.map(...)` before joining) so that per-fragment
properties can be stated, and `joinSetCols` performs the join. -/
structure UpdateClause where
  cols : List String
  values : List JSVal
  deriving DecidableEq, Repr

/-- `cols.join(", ")`, producing the `setCols` string of the source. -/
def joinSetCols (cols : List String) : String :=
  String.intercalate ", " cols

/-- JS `jsToSql[colName] || colName` from `helpers/sql.js` line 52: `||`
falls back when the lookup is `undefined` (key absent) or any other falsy
value; the only falsy string is `""`. -/
def orFalsy (entry : Option String) (colName : String) : String :=
  match entry with
  | some s => if s = "" then colName else s
  | none => colName

/-- `sqlForPartialUpdate(dataToUpdate, jsToSql)` from `helpers/sql.js`:
throws `BadRequestError("No data")` on an empty spec, otherwise maps each
key (in insertion order) to the fragment `"<column>"=$<idx+1>` and returns
`Object.values(dataToUpdate)` as the parameter list. -/
def sqlForPartialUpdate (dataToUpdate : List (String × JSVal))
    (jsToSql : String → Option String) : Except JoblyError UpdateClause :=
  let keys := dataToUpdate.map Prod.fst
  if keys.length = 0 then .error (.badRequest "No data")
  else
    .ok { cols := keys.mapIdx (fun idx colName =>
            "\x22" ++ orFalsy (jsToSql colName) colName ++ "\x22=$" ++ toString (idx + 1)),
          values := dataToUpdate.map Prod.snd }

/-! ## Filter clause builder (`Job.findAll` in `models/job.js`) -/

/-- The query object passed to `Job.findAll` (from `req.query` or a direct
call), restricted to the domain where the `title` slot, when present, is a
string. `none` means the property is absent (destructuring defaults
apply); `minSalary` and `hasEquity` may hold arbitrary JS values. On this
domain the filter construction is total; `RawFilterQueries` and
`jobFindAllFilterRaw` below lift the restriction on `title` and model the
`TypeError` that `title.split(" ")` raises on truthy non-string titles. -/
structure FilterQueries where
  title : Option String
  minSalary : Option JSVal
  hasEquity : Option JSVal
  deriving DecidableEq, Repr

/-- Splitting a character list on a separator character, keeping empty
pieces: the semantics of JS `String.prototype.split` with a single-character
separator (`"".split(" ") = [""]`, `"a  b".split(" ") = ["a","","b"]`). -/
def splitChars (sep : Char) : List Char → List (List Char)
  | [] => [[]]
  | c :: cs =>
      match splitChars sep cs with
      | [] => []
      | w :: ws => if c = sep then [] :: w :: ws else (c :: w) :: ws

/-- JS `title.split(" ")` from `Job.findAll` line 499: split on each
single space character, keeping empty pieces. -/
def jsSplitOnSpace (s : String) : List String :=
  (splitChars ' ' s.data).map fun cs => String.mk cs

/-- The `for (let word of words)` loop of `Job.findAll`: for each word,
push `title ILIKE $<queryValues.length + 1>` onto `queryFilters` and
`%word%` onto `queryValues`. State is `(queryFilters, queryValues)`. -/
def titleLoop (words : List String) (st : List String × List JSVal) :
    List String × List JSVal :=
  match words with
  | [] => st
  | word :: rest =>
      titleLoop rest
        (st.1 ++ ["title ILIKE $" ++ toString (st.2.length + 1)],
         st.2 ++ [JSVal.str ("%" ++ word ++ "%")])

/-- `if (title) { const words = title.split(" "); ... }`: a non-empty
title string is truthy; JS `split(" ")` splits on each single space
character, keeping empty pieces (`jsSplitOnSpace`). -/
def titleStep (title : String) (st : List String × List JSVal) :
    List String × List JSVal :=
  if title = "" then st else titleLoop (jsSplitOnSpace title) st

/-- `if (minSalary !== null) { ... }`: push ``salary >= $N `` (the source
template has a trailing space) and `Number(minSalary)`. -/
def minSalaryStep (minSalary : JSVal) (st : List String × List JSVal) :
    List String × List JSVal :=
  if minSalary = JSVal.null then st
  else (st.1 ++ ["salary >= $" ++ toString (st.2.length + 1) ++ " "],
        st.2 ++ [jsNumber minSalary])

/-- `if (hasEquityBoolean) { ... }`: push
`equity > $N AND equity IS NOT NULL` and the value `0`. -/
def hasEquityStep (hasEquityBoolean : Bool) (st : List String × List JSVal) :
    List String × List JSVal :=
  if hasEquityBoolean then
    (st.1 ++ ["equity > $" ++ toString (st.2.length + 1) ++ " AND equity IS NOT NULL"],
     st.2 ++ [JSVal.num 0])
  else st

/-- The filter-construction part of `Job.findAll(queries)` on the
string-titled domain, where it is total: destructure with defaults
(`title = ""`, `minSalary = null`), compute
`hasEquityBoolean = (hasEquity === "true")` (strict equality: only the
string `"true"` matches), then run the three criterion steps in source
order on the initially empty `(queryFilters, queryValues)` state. The
full partial behavior, including the `TypeError` on truthy non-string
titles, is `jobFindAllFilterRaw`. -/
def jobFindAllFilter (queries : FilterQueries) : List String × List JSVal :=
  let title := queries.title.getD ""
  let minSalary := queries.minSalary.getD JSVal.null
  let hasEquityBoolean : Bool := queries.hasEquity = some (JSVal.str "true")
  hasEquityStep hasEquityBoolean (minSalaryStep minSalary (titleStep title ([], [])))

/-- `queryFilters.length > 0 ? `WHERE ${queryFilters.join(" AND ")}` : ""`
from `Job.findAll`. -/
def whereClause (queryFilters : List String) : String :=
  if queryFilters.length > 0 then "WHERE " ++ String.intercalate " AND " queryFilters
  else ""

/-- The three activation conditions of `Job.findAll`'s criteria, read off
the source's `if` guards. -/
def titleActive (q : FilterQueries) : Prop := q.title.getD "" ≠ ""

def minSalaryActive (q : FilterQueries) : Prop := q.minSalary.getD JSVal.null ≠ JSVal.null

def hasEquityActive (q : FilterQueries) : Prop := q.hasEquity = some (JSVal.str "true")

instance (q : FilterQueries) : Decidable (titleActive q) := by
  unfold titleActive; infer_instance

instance (q : FilterQueries) : Decidable (minSalaryActive q) := by
  unfold minSalaryActive; infer_instance

instance (q : FilterQueries) : Decidable (hasEquityActive q) := by
  unfold hasEquityActive; infer_instance

/-- Splitting a character list on whitespace characters, keeping empty
pieces (companion to `splitChars`, used by `specWhitespaceWords`). -/
def splitWhitespace : List Char → List (List Char)
  | [] => [[]]
  | c :: cs =>
      match splitWhitespace cs with
      | [] => []
      | w :: ws => if c.isWhitespace then [] :: w :: ws else (c :: w) :: ws

/-- Modelled from the spec: "split on whitespace into words" (§4.3) — the
words of a string under the spec's reading: maximal runs of non-whitespace
characters, i.e. split on whitespace characters and drop empty pieces. -/
def specWhitespaceWords (s : String) : List String :=
  ((splitWhitespace s.data).map fun cs => String.mk cs).filter fun w => w != ""

/-- A clause fragment drawn from the filter builder's fixed alphabet: its
text mentions only a target column name and a positional placeholder
index, never caller-supplied data. -/
def trustedFragment (f : String) : Prop :=
  ∃ n : Nat,
    f = "title ILIKE $" ++ toString n
    ∨ f = "salary >= $" ++ toString n ++ " "
    ∨ f = "equity > $" ++ toString n ++ " AND equity IS NOT NULL"

/-- JS truthiness (`if (title)`): among the modelled values the falsy
ones are `""`, `0`, `NaN`, `null` and `false`; everything else is
truthy. -/
def jsTruthy : JSVal → Bool
  | .str s => !(s == "")
  | .num n => !(n == 0)
  | .bool b => b
  | .null => false
  | .nan => false

/-- A value as it may arrive in the `title` slot of `req.query` (or of a
direct `Job.findAll` call): a JS primitive, or an array of strings —
Express's query parser produces an array for a repeated parameter such
as `GET /jobs?title=a&title=b`. -/
inductive TitleVal where
  | prim : JSVal → TitleVal
  | strArray : List String → TitleVal
  deriving DecidableEq, Repr

/-- Truthiness of a `title` slot value: primitives by `jsTruthy`; an
array is an object and is always truthy, even when empty. -/
def titleTruthy : TitleVal → Bool
  | .prim v => jsTruthy v
  | .strArray _ => true

/-- The JS runtime error raised when `title.split(" ")` is reached with
a truthy non-string `title` (`title.split is not a function`): a
`TypeError`, which escapes `Job.findAll` and surfaces as a server
error. -/
inductive JsRuntimeError where
  | typeError
  deriving DecidableEq, Repr

/-- The query object of `Job.findAll` with the `title` slot left untyped
as it arrives from JS; `FilterQueries` is its restriction to the domain
where `title`, when present, is a string. -/
structure RawFilterQueries where
  title : Option TitleVal
  minSalary : Option JSVal
  hasEquity : Option JSVal
  deriving DecidableEq, Repr

/-- The filter-construction part of `Job.findAll` over the raw query
object, including its error path: after the destructuring defaults, a
truthy `title` flows into `title.split(" ")`, which raises a `TypeError`
unless `title` is a string; falsy titles skip the text criterion, and
the remaining two criteria never fail. On string-or-absent titles this
agrees with `jobFindAllFilter` (proved below). -/
def jobFindAllFilterRaw (queries : RawFilterQueries) :
    Except JsRuntimeError (List String × List JSVal) :=
  let title := queries.title.getD (TitleVal.prim (JSVal.str ""))
  let minSalary := queries.minSalary.getD JSVal.null
  let hasEquityBoolean : Bool := queries.hasEquity = some (JSVal.str "true")
  if titleTruthy title then
    match title with
    | TitleVal.prim (JSVal.str s) =>
        .ok (hasEquityStep hasEquityBoolean
              (minSalaryStep minSalary (titleLoop (jsSplitOnSpace s) ([], []))))
    | _ => .error JsRuntimeError.typeError
  else
    .ok (hasEquityStep hasEquityBoolean (minSalaryStep minSalary ([], [])))

/-! ## Guard chain (`middleware/auth.js`) -/

/-- The decoded token payload attached to `res.locals.user` by
`authenticateJWT`. `username = none` models a payload object with no
`username` field (`undefined`); `isAdmin` is the JS truthiness of the
`isAdmin` field (an absent field is falsy). -/
structure Actor where
  username : Option String
  isAdmin : Bool
  deriving DecidableEq, Repr

/-- Outcome of one auth middleware: `allow` is `next()` with no argument;
`unauthorized` is `next(new UnauthorizedError(...))` (HTTP 401);
`forbidden` is `next(new ForbiddenError(...))` (HTTP 403); `typeError` is
a JS `TypeError` raised inside the middleware body, caught by its
`try/catch` and forwarded via `next(err)` (surfaced as a 500 server
error, not an auth error). -/
inductive AuthOutcome where
  | allow
  | unauthorized
  | forbidden
  | typeError
  deriving DecidableEq, Repr

/-- `ensureLoggedIn`: `if (!res.locals.user) throw new UnauthorizedError()`.
Only the truthiness of the attached object is tested (any object is
truthy); no field of the payload is inspected. -/
def ensureLoggedIn (user : Option Actor) : AuthOutcome :=
  match user with
  | none => .unauthorized
  | some _ => .allow

/-- `ensureAdmin`: allow when `res.locals.user && res.locals.user.isAdmin`;
`ForbiddenError("User must be admin")` when a user object is attached but
not admin; `UnauthorizedError(...)` when no user object is attached. -/
def ensureAdmin (user : Option Actor) : AuthOutcome :=
  match user with
  | some u => if u.isAdmin then .allow else .forbidden
  | none => .unauthorized

/-- `ensureOwnerOrAdmin`: reads `loggedInUser = res.locals.user` and
`userIdFromParams = req.params.username` (always a string for a matched
`:username` route). When no user object is attached, the property access
`loggedInUser.isAdmin` raises a JS `TypeError` (reading a property of
`undefined`), which the `catch` forwards via `next(err)`. Otherwise allow
if `isAdmin` is truthy or `username === userIdFromParams` (an absent
`username` field is `undefined`, never strictly equal to a string), else
`ForbiddenError(...)`. -/
def ensureOwnerOrAdmin (user : Option Actor) (usernameFromParams : String) :
    AuthOutcome :=
  match user with
  | none => .typeError
  | some u =>
      if u.isAdmin then .allow
      else if u.username = some usernameFromParams then .allow
      else .forbidden

/-! ## Sanity checks against the source's own unit tests -/

example :
    sqlForPartialUpdate [("firstName", .str "Aliya"), ("age", .num 32)]
      (fun k => if k = "firstName" then some "first_name" else if k = "age" then some "age" else none)
      = .ok { cols := ["\x22first_name\x22=$1", "\x22age\x22=$2"],
              values := [.str "Aliya", .num 32] } := by
  rfl

example :
    joinSetCols ["\x22first_name\x22=$1", "\x22age\x22=$2"] = "\x22first_name\x22=$1, \x22age\x22=$2" := by
  decide

example :
    sqlForPartialUpdate [("firstName", .str "Aliya"), ("age", .num 32)] (fun _ => none)
      = .ok { cols := ["\x22firstName\x22=$1", "\x22age\x22=$2"],
              values := [.str "Aliya", .num 32] } := by
  rfl

example :
    jobFindAllFilter { title := some "j1", minSalary := none, hasEquity := none }
      = (["title ILIKE $1"], [.str "%j1%"]) := by
  decide

example :
    jobFindAllFilter { title := none, minSalary := some (.num 40000), hasEquity := none }
      = (["salary >= $1 "], [.num 40000]) := by
  decide

example :
    jobFindAllFilter { title := none, minSalary := none, hasEquity := some (.str "true") }
      = (["equity > $1 AND equity IS NOT NULL"], [.num 0]) := by
  decide

example :
    jobFindAllFilter { title := some "soft eng", minSalary := some (.num 1), hasEquity := some (.str "true") }
      = (["title ILIKE $1", "title ILIKE $2", "salary >= $3 ", "equity > $4 AND equity IS NOT NULL"],
         [.str "%soft%", .str "%eng%", .num 1, .num 0]) := by
  decide

example :
    jobFindAllFilterRaw { title := some (TitleVal.prim (JSVal.str "j1")), minSalary := none, hasEquity := none }
      = .ok (["title ILIKE $1"], [.str "%j1%"]) := by
  rfl

example :
    jobFindAllFilterRaw { title := some (TitleVal.prim (JSVal.num 0)), minSalary := none, hasEquity := none }
      = .ok ([], []) := by
  rfl

example : whereClause [] = "" := by decide

example :
    whereClause ["title ILIKE $1", "title ILIKE $2"]
      = "WHERE title ILIKE $1 AND title ILIKE $2" := by
  decide

/-! ## Helper lemmas -/

/-- Unfolding of the word loop: starting from state `(fs, vs)` it appends
one `title ILIKE $N` fragment per word, numbering from `vs.length + 1`,
and one `%word%` parameter per word. -/
theorem titleLoop_spec (words : List String) (fs : List String) (vs : List JSVal) :
    titleLoop words (fs, vs) =
      (fs ++ (List.range words.length).map
          (fun i => "title ILIKE $" ++ toString (vs.length + i + 1)),
       vs ++ words.map fun w => JSVal.str ("%" ++ w ++ "%")) := by
  induction words generalizing fs vs with
  | nil => simp [titleLoop]
  | cons w ws ih =>
      rw [titleLoop, ih]
      simp only [List.length_append, List.length_cons, List.length_nil,
        List.range_succ_eq_map, List.map_cons, List.map_map, List.append_assoc,
        List.singleton_append, List.length, Nat.add_zero, Nat.zero_add]
      have hmap : List.map ((fun i => "title ILIKE $" ++ toString (vs.length + i + 1)) ∘ Nat.succ)
          (List.range ws.length)
          = List.map (fun i => "title ILIKE $" ++ toString (vs.length + 1 + i + 1))
            (List.range ws.length) := by
        apply List.map_congr_left
        intro i _
        simp only [Function.comp_apply]
        congr 2
        omega
      rw [hmap]

/-- `minSalaryStep` only appends to the state, and the only fragment it
can append is the `salary >= $N ` one. -/
theorem minSalaryStep_append (v : JSVal) (st : List String × List JSVal) :
    ∃ fs vs, minSalaryStep v st = (st.1 ++ fs, st.2 ++ vs)
      ∧ (fs = [] ∨ fs = ["salary >= $" ++ toString (st.2.length + 1) ++ " "]) := by
  unfold minSalaryStep
  by_cases h : v = JSVal.null
  · exact ⟨[], [], by simp [h], Or.inl rfl⟩
  · refine ⟨["salary >= $" ++ toString (st.2.length + 1) ++ " "], [jsNumber v], ?_, Or.inr rfl⟩
    simp [h]

/-- `hasEquityStep` only appends to the state, and the only fragment it
can append is the equity one. -/
theorem hasEquityStep_append (b : Bool) (st : List String × List JSVal) :
    ∃ fs vs, hasEquityStep b st = (st.1 ++ fs, st.2 ++ vs)
      ∧ (fs = [] ∨ fs = ["equity > $" ++ toString (st.2.length + 1) ++ " AND equity IS NOT NULL"]) := by
  unfold hasEquityStep
  cases b
  · exact ⟨[], [], by simp, Or.inl rfl⟩
  · refine ⟨["equity > $" ++ toString (st.2.length + 1) ++ " AND equity IS NOT NULL"],
      [JSVal.num 0], ?_, Or.inr rfl⟩
    simp

/-- `titleLoop` started on the empty state: one `title ILIKE $<i+1>`
fragment and one `%word%` parameter per word, in order. -/
theorem titleLoop_nil_spec (words : List String) :
    titleLoop words ([], []) =
      ((List.range words.length).map (fun i => "title ILIKE $" ++ toString (i + 1)),
       words.map fun w => JSVal.str ("%" ++ w ++ "%")) := by
  rw [titleLoop_spec]
  simp

/-- `orFalsy` in closed form: the entry is used exactly when it is present
and non-empty. -/
theorem orFalsy_eq_getD (entry : Option String) (k : String) :
    orFalsy entry k = if entry.getD "" = "" then k else entry.getD "" := by
  cases entry with
  | none => simp [orFalsy]
  | some s => by_cases hs : s = "" <;> simp [orFalsy, hs]

/-! ## Claim theorems: guard chain -/

/-- C3 counterexample: on the anonymous actor (no identity attached),
`ensureOwnerOrAdmin` raises a JS `TypeError` (reading `.isAdmin` of
`undefined`), forwarded by its `catch` as a server error — not the
`Forbidden` outcome the claim requires. -/
theorem ensureOwnerOrAdmin_anonymous_counterexample :
    ensureOwnerOrAdmin none "u1" = AuthOutcome.typeError
    ∧ ensureOwnerOrAdmin none "u1" ≠ AuthOutcome.forbidden := by
  decide

/-- C3 (amended): an authenticated non-admin actor whose username does not
equal the resource owner reference is denied with `Forbidden`; an
authenticated non-admin actor whose username equals the reference is
allowed; the anonymous actor is denied, but via a `TypeError` (server
error), not `Forbidden`. -/
theorem ensureOwnerOrAdmin_decision (u : Actor) (ref : String) :
    (u.isAdmin = false → u.username ≠ some ref →
        ensureOwnerOrAdmin (some u) ref = AuthOutcome.forbidden)
    ∧ (u.isAdmin = false → u.username = some ref →
        ensureOwnerOrAdmin (some u) ref = AuthOutcome.allow)
    ∧ ensureOwnerOrAdmin none ref = AuthOutcome.typeError := by
  refine ⟨fun ha hu => ?_, fun ha hu => ?_, rfl⟩
  · simp [ensureOwnerOrAdmin, ha, hu]
  · simp [ensureOwnerOrAdmin, ha, hu]

/-- Witness for C3's amended theorem, on the spec's end-to-end scenario:
`u3` on `u1`'s resource is forbidden, `u1` on its own resource is
allowed, and the anonymous actor gets the `TypeError` outcome. -/
theorem ensureOwnerOrAdmin_decision_witness :
    ensureOwnerOrAdmin (some { username := some "u3", isAdmin := false }) "u1"
        = AuthOutcome.forbidden
    ∧ ensureOwnerOrAdmin (some { username := some "u1", isAdmin := false }) "u1"
        = AuthOutcome.allow
    ∧ ensureOwnerOrAdmin none "u1" = AuthOutcome.typeError :=
  ⟨(ensureOwnerOrAdmin_decision { username := some "u3", isAdmin := false } "u1").1
      rfl (by decide),
   (ensureOwnerOrAdmin_decision { username := some "u1", isAdmin := false } "u1").2.1
      rfl rfl,
   (ensureOwnerOrAdmin_decision { username := some "u1", isAdmin := false } "u1").2.2⟩

/-- C4: an admin actor is always allowed by `ensureOwnerOrAdmin`, for
every value of the resource owner reference — the `isAdmin` disjunct is
evaluated first and short-circuits, so a username mismatch is never an
error. -/
theorem ensureOwnerOrAdmin_admin_allows (u : Actor) (ref : String)
    (h : u.isAdmin = true) :
    ensureOwnerOrAdmin (some u) ref = AuthOutcome.allow := by
  simp [ensureOwnerOrAdmin, h]

/-- Witness for C4: the admin actor acting on `u1`'s resource, with a
username that differs from the reference, is allowed. -/
theorem ensureOwnerOrAdmin_admin_allows_witness :
    ({ username := some "admin", isAdmin := true } : Actor).username ≠ some "u1"
    ∧ ensureOwnerOrAdmin (some { username := some "admin", isAdmin := true }) "u1"
        = AuthOutcome.allow :=
  ⟨by decide,
   ensureOwnerOrAdmin_admin_allows { username := some "admin", isAdmin := true } "u1" rfl⟩

/-- C5: `ensureAdmin` distinguishes its failure kinds — anonymous actors
get `Unauthorized` (401), authenticated non-admin actors get `Forbidden`
(403), and authenticated admin actors are allowed. -/
theorem ensureAdmin_decision :
    ensureAdmin none = AuthOutcome.unauthorized
    ∧ (∀ u : Actor, u.isAdmin = false → ensureAdmin (some u) = AuthOutcome.forbidden)
    ∧ (∀ u : Actor, u.isAdmin = true → ensureAdmin (some u) = AuthOutcome.allow) := by
  refine ⟨rfl, fun u h => ?_, fun u h => ?_⟩
  · simp [ensureAdmin, h]
  · simp [ensureAdmin, h]

/-- Witness for C5 at concrete actors of each kind. -/
theorem ensureAdmin_decision_witness :
    ensureAdmin none = AuthOutcome.unauthorized
    ∧ ensureAdmin (some { username := some "u1", isAdmin := false }) = AuthOutcome.forbidden
    ∧ ensureAdmin (some { username := some "admin", isAdmin := true }) = AuthOutcome.allow :=
  ⟨ensureAdmin_decision.1,
   ensureAdmin_decision.2.1 { username := some "u1", isAdmin := false } rfl,
   ensureAdmin_decision.2.2 { username := some "admin", isAdmin := true } rfl⟩

/-- C10 counterexample: an actor object that carries no `username` field
is still allowed by `ensureLoggedIn` — the middleware only tests the
truthiness of `res.locals.user` and never inspects `username`, so the
claim's "allows exactly when Actor.username is present" fails. -/
theorem ensureLoggedIn_noUsername_counterexample :
    ensureLoggedIn (some { username := none, isAdmin := false }) = AuthOutcome.allow
    ∧ ({ username := none, isAdmin := false } : Actor).username = none := by
  decide

/-- C10 (amended): `ensureLoggedIn` allows exactly when an actor object is
attached to the request (whether or not it carries a `username` field),
and signals `Unauthorized` exactly when no actor is attached. -/
theorem ensureLoggedIn_decision (user : Option Actor) :
    (ensureLoggedIn user = AuthOutcome.allow ↔ user.isSome = true)
    ∧ (ensureLoggedIn user = AuthOutcome.unauthorized ↔ user = none) := by
  cases user <;> simp [ensureLoggedIn]

/-! ## Claim theorems: partial-update builder -/

/-- C9: on the empty update spec, `sqlForPartialUpdate` fails with
`BadRequestError("No data")` for every translation table; it never
returns a result on empty input. -/
theorem sqlForPartialUpdate_empty_fails (t : String → Option String) :
    sqlForPartialUpdate [] t = .error (.badRequest "No data") := rfl

/-- C1 counterexample: with update spec `{age: 32}` and translation table
`{age: ""}`, a translation entry for `age` exists (`""`), so the claim
mandates the fragment `""=$1`; the source's `||` treats the empty string
as falsy and emits `"age"=$1` instead. -/
theorem sqlForPartialUpdate_emptyEntry_counterexample :
    (fun k => if k = "age" then some "" else none : String → Option String) "age" = some ""
    ∧ sqlForPartialUpdate [("age", JSVal.num 32)]
        (fun k => if k = "age" then some "" else none)
        = .ok { cols := ["\x22age\x22=$1"], values := [JSVal.num 32] }
    ∧ ("\x22age\x22=$1" : String) ≠ "\x22\x22=$1" := by
  refine ⟨rfl, rfl, by decide⟩

/-- C1 (amended): for every non-empty update spec, the builder returns
exactly one fragment per key, in the mapping's key order; the Nth
fragment is `"<column>"=$N` where `<column>` is the translation entry for
the Nth key when a non-empty entry exists and the key's own name
otherwise (an empty-string entry also falls back, because JS `||` treats
it as falsy); and the Nth parameter equals the value of the Nth key. -/
theorem sqlForPartialUpdate_fragments (data : List (String × JSVal))
    (t : String → Option String) (h : data ≠ []) :
    ∃ u : UpdateClause,
      sqlForPartialUpdate data t = .ok u
      ∧ u.cols.length = data.length
      ∧ u.values = data.map Prod.snd
      ∧ ∀ (n : Nat) (hn : n < data.length),
          u.cols[n]? =
            some ("\x22" ++
              (if (t (data[n].1)).getD "" = "" then data[n].1
               else (t (data[n].1)).getD "") ++ "\x22=$" ++ toString (n + 1)) := by
  have hd : ¬ (data.map Prod.fst).length = 0 := by
    simp only [List.length_map, List.length_eq_zero]
    exact h
  refine ⟨{ cols := (data.map Prod.fst).mapIdx (fun idx colName =>
              "\x22" ++ orFalsy (t colName) colName ++ "\x22=$" ++ toString (idx + 1)),
            values := data.map Prod.snd }, ?_, ?_, rfl, ?_⟩
  · unfold sqlForPartialUpdate
    rw [if_neg hd]
  · simp [List.length_mapIdx]
  · intro n hn
    have hn' : n < ((data.map Prod.fst).mapIdx (fun idx colName =>
        "\x22" ++ orFalsy (t colName) colName ++ "\x22=$" ++ toString (idx + 1))).length := by
      simpa [List.length_mapIdx] using hn
    have hnm : n < (data.map Prod.fst).length := by simpa using hn
    rw [List.getElem?_eq_getElem hn']
    have hget := List.get_mapIdx (data.map Prod.fst)
      (fun idx colName => "\x22" ++ orFalsy (t colName) colName ++ "\x22=$" ++ toString (idx + 1))
      n hnm
    simp only [List.get_eq_getElem] at hget
    have hkey : (data.map Prod.fst)[n] = (data[n]).1 := List.getElem_map Prod.fst
    rw [hkey] at hget
    rw [hget, orFalsy_eq_getD]

/-- Witness for C1's amended theorem at the spec's own example
`{firstName: "Aliya", age: 32}` with translation
`{firstName: "first_name"}`. -/
theorem sqlForPartialUpdate_fragments_witness :
    (sqlForPartialUpdate [("firstName", JSVal.str "Aliya"), ("age", JSVal.num 32)]
        (fun k => if k = "firstName" then some "first_name" else none)).map UpdateClause.values
      = .ok [JSVal.str "Aliya", JSVal.num 32] := by
  obtain ⟨u, h1, _h2, h3, _h4⟩ :=
    sqlForPartialUpdate_fragments
      [("firstName", JSVal.str "Aliya"), ("age", JSVal.num 32)]
      (fun k => if k = "firstName" then some "first_name" else none) (by decide)
  rw [h1]
  simp [Except.map, h3]

/-- The two post-title steps of `Job.findAll` only append to the state
produced by the title step. -/
theorem laterSteps_append (v : JSVal) (b : Bool) (st : List String × List JSVal) :
    ∃ fs vs, hasEquityStep b (minSalaryStep v st) = (st.1 ++ fs, st.2 ++ vs) := by
  obtain ⟨f1, v1, hm, _⟩ := minSalaryStep_append v st
  obtain ⟨f2, v2, he, _⟩ := hasEquityStep_append b (minSalaryStep v st)
  refine ⟨f1 ++ f2, v1 ++ v2, ?_⟩
  rw [he, hm]
  simp [List.append_assoc]

/-- C2: no caller-supplied value is interpolated into clause text.
First conjunct (two-run form, update builder): update specs with the same
keys under the same translation table yield identical clause text,
whatever their values. Second conjunct (filter builder): every emitted
predicate fragment is drawn from the fixed alphabet `trustedFragment` —
column names and placeholder indices only, values travel exclusively in
the parameter list. -/
theorem queryBuilder_no_value_interpolation :
    (∀ (d1 d2 : List (String × JSVal)) (t : String → Option String),
        d1.map Prod.fst = d2.map Prod.fst →
        (sqlForPartialUpdate d1 t).map UpdateClause.cols
          = (sqlForPartialUpdate d2 t).map UpdateClause.cols)
    ∧ (∀ (q : FilterQueries) (f : String),
        f ∈ (jobFindAllFilter q).1 → trustedFragment f) := by
  constructor
  · intro d1 d2 t h
    have hlen : d1.length = d2.length := by
      have := congrArg List.length h
      simpa using this
    by_cases hl : d2 = []
    · have hl1 : d1 = [] := by
        apply List.eq_nil_of_length_eq_zero
        rw [hlen, hl]
        rfl
      subst hl
      subst hl1
      rfl
    · have hl1 : d1 ≠ [] := by
        intro hh
        apply hl
        apply List.eq_nil_of_length_eq_zero
        rw [← hlen, hh]
        rfl
      simp [sqlForPartialUpdate, Except.map, h, List.length_eq_zero, hl, hl1]
  · intro q f hf
    unfold jobFindAllFilter at hf
    have hst0 : ∀ g ∈ (titleStep (q.title.getD "") ([], [])).1, trustedFragment g := by
      intro g hg
      unfold titleStep at hg
      by_cases ht : q.title.getD "" = ""
      · rw [if_pos ht] at hg
        simp at hg
      · rw [if_neg ht, titleLoop_nil_spec] at hg
        simp only [List.mem_map, List.mem_range] at hg
        obtain ⟨i, _, hi⟩ := hg
        exact ⟨i + 1, Or.inl hi.symm⟩
    obtain ⟨f1, v1, hm, hf1⟩ :=
      minSalaryStep_append (q.minSalary.getD JSVal.null) (titleStep (q.title.getD "") ([], []))
    obtain ⟨f2, v2, he, hf2⟩ :=
      hasEquityStep_append (decide (q.hasEquity = some (JSVal.str "true")))
        (minSalaryStep (q.minSalary.getD JSVal.null) (titleStep (q.title.getD "") ([], [])))
    rw [he, hm] at hf
    simp only [List.mem_append] at hf
    rcases hf with (hf | hf) | hf
    · exact hst0 f hf
    · rcases hf1 with h1 | h1
      · rw [h1] at hf; simp at hf
      · rw [h1] at hf
        simp only [List.mem_singleton] at hf
        exact ⟨(titleStep (q.title.getD "") ([], [])).2.length + 1, Or.inr (Or.inl hf)⟩
    · rcases hf2 with h2 | h2
      · rw [h2] at hf; simp at hf
      · rw [h2] at hf
        simp only [List.mem_singleton] at hf
        rw [hm] at hf
        exact ⟨_, Or.inr (Or.inr hf)⟩

/-- Witness for C2: two one-key update specs with the same key and
different values produce identical clause text, and the fragment emitted
for the filter `{title: "j1"}` is from the trusted alphabet. -/
theorem queryBuilder_no_value_interpolation_witness :
    (sqlForPartialUpdate [("firstName", JSVal.str "Aliya")] (fun _ => none)).map UpdateClause.cols
      = (sqlForPartialUpdate [("firstName", JSVal.str "Bob")] (fun _ => none)).map UpdateClause.cols
    ∧ trustedFragment "title ILIKE $1" :=
  ⟨queryBuilder_no_value_interpolation.1 _ _ _ rfl,
   queryBuilder_no_value_interpolation.2
     { title := some "j1", minSalary := none, hasEquity := none } "title ILIKE $1"
     (by
       have hlist : (jobFindAllFilter
           { title := some "j1", minSalary := none, hasEquity := none }).1
           = ["title ILIKE $1"] := rfl
       rw [hlist]
       exact List.mem_singleton.mpr rfl)⟩

/-! ## Claim theorems: filter builder -/

/-- C6 counterexample: on the title `"a  b"` (two consecutive spaces),
splitting "on whitespace into words" yields the two words `a` and `b`,
but the source splits on each single space character and emits three
predicates — one per piece, including the empty piece, whose parameter is
`%%` (not `%word%` for any whitespace-delimited word). -/
theorem jobFindAllFilter_splitSemantics_counterexample :
    specWhitespaceWords "a  b" = ["a", "b"]
    ∧ (jobFindAllFilter { title := some "a  b", minSalary := none, hasEquity := none }).1
        = ["title ILIKE $1", "title ILIKE $2", "title ILIKE $3"]
    ∧ (jobFindAllFilter { title := some "a  b", minSalary := none, hasEquity := none }).2
        = [JSVal.str "%a%", JSVal.str "%%", JSVal.str "%b%"]
    ∧ (jobFindAllFilter { title := some "a  b", minSalary := none, hasEquity := none }).1.length
        ≠ (specWhitespaceWords "a  b").length := by
  refine ⟨rfl, rfl, rfl, by decide⟩

/-- C6 (amended): for every filter spec whose title is present and
non-empty, the builder splits the title on each single space character
(consecutive spaces yield empty words, each still consuming a parameter
`%%`; whitespace other than the space character does not split) and emits
one case-insensitive substring predicate (`ILIKE`) per resulting word,
all against the `title` column; the Nth word predicate uses placeholder
`$N` and the Nth parameter is the Nth word wrapped as `%word%` by the
builder. The word predicates are emitted one per word — never as a single
phrase predicate — and the fragment list is later joined with `AND`. -/
theorem jobFindAllFilter_titleWords (s : String) (q : FilterQueries)
    (hq : q.title = some s) (hs : s ≠ "") :
    (jobFindAllFilter q).1.take (jsSplitOnSpace s).length
        = (List.range (jsSplitOnSpace s).length).map
            (fun i => "title ILIKE $" ++ toString (i + 1))
    ∧ (jobFindAllFilter q).2.take (jsSplitOnSpace s).length
        = (jsSplitOnSpace s).map fun w => JSVal.str ("%" ++ w ++ "%") := by
  have htitle : titleStep s ([], []) =
      ((List.range (jsSplitOnSpace s).length).map
          (fun i => "title ILIKE $" ++ toString (i + 1)),
       (jsSplitOnSpace s).map fun w => JSVal.str ("%" ++ w ++ "%")) := by
    unfold titleStep
    rw [if_neg hs, titleLoop_nil_spec]
  obtain ⟨fs, vs, hrest⟩ := laterSteps_append (q.minSalary.getD JSVal.null)
    (decide (q.hasEquity = some (JSVal.str "true"))) (titleStep s ([], []))
  have hout : jobFindAllFilter q =
      ((titleStep s ([], [])).1 ++ fs, (titleStep s ([], [])).2 ++ vs) := by
    simp only [jobFindAllFilter, hq, Option.getD_some]
    exact hrest
  rw [hout]
  constructor
  · rw [htitle]
    exact List.take_left' (by simp)
  · rw [htitle]
    exact List.take_left' (by simp)

/-- Witness for C6's amended theorem at the spec's example
`{title: "soft eng"}`: two `ILIKE` predicates, parameters `%soft%` and
`%eng%`, not one phrase predicate. -/
theorem jobFindAllFilter_titleWords_witness :
    (jobFindAllFilter { title := some "soft eng", minSalary := none, hasEquity := none }).1.take 2
        = ["title ILIKE $1", "title ILIKE $2"]
    ∧ (jobFindAllFilter { title := some "soft eng", minSalary := none, hasEquity := none }).2.take 2
        = [JSVal.str "%soft%", JSVal.str "%eng%"] := by
  have h := jobFindAllFilter_titleWords "soft eng"
    { title := some "soft eng", minSalary := none, hasEquity := none } rfl (by decide)
  have hw : (jsSplitOnSpace "soft eng").length = 2 := rfl
  rw [hw] at h
  exact ⟨h.1.trans (by rfl), h.2.trans (by rfl)⟩

/-- C7: the boolean criterion activates only on the exact string value
`"true"` (strict `===` comparison): for every other `hasEquity` value —
absent, the non-string boolean `true`, `"false"`, `"yes"`, or garbage —
the output is the one of the same query without the criterion; when
active, exactly one predicate `equity > $N AND equity IS NOT NULL` is
appended (column non-null and strictly greater than the parameter `0`),
consuming one parameter. -/
theorem jobFindAllFilter_hasEquity (q : FilterQueries) :
    (q.hasEquity ≠ some (JSVal.str "true") →
        jobFindAllFilter q = jobFindAllFilter { q with hasEquity := none })
    ∧ (q.hasEquity = some (JSVal.str "true") →
        jobFindAllFilter q
          = ((jobFindAllFilter { q with hasEquity := none }).1
               ++ ["equity > $"
                    ++ toString ((jobFindAllFilter { q with hasEquity := none }).2.length + 1)
                    ++ " AND equity IS NOT NULL"],
             (jobFindAllFilter { q with hasEquity := none }).2 ++ [JSVal.num 0])) := by
  constructor
  · intro h
    simp [jobFindAllFilter, hasEquityStep, h]
  · intro h
    simp [jobFindAllFilter, hasEquityStep, h]

/-- Witness for C7: the non-string `true` does not activate the criterion;
the string `"true"` appends the equity predicate with parameter `0`. -/
theorem jobFindAllFilter_hasEquity_witness :
    jobFindAllFilter { title := none, minSalary := none, hasEquity := some (JSVal.bool true) }
        = jobFindAllFilter { title := none, minSalary := none, hasEquity := none }
    ∧ jobFindAllFilter { title := none, minSalary := none, hasEquity := some (JSVal.str "true") }
        = ((jobFindAllFilter { title := none, minSalary := none, hasEquity := none }).1
             ++ ["equity > $"
                  ++ toString ((jobFindAllFilter { title := none, minSalary := none, hasEquity := none }).2.length + 1)
                  ++ " AND equity IS NOT NULL"],
           (jobFindAllFilter { title := none, minSalary := none, hasEquity := none }).2
             ++ [JSVal.num 0]) :=
  ⟨(jobFindAllFilter_hasEquity
      { title := none, minSalary := none, hasEquity := some (JSVal.bool true) }).1 (by decide),
   (jobFindAllFilter_hasEquity
      { title := none, minSalary := none, hasEquity := some (JSVal.str "true") }).2 rfl⟩

/-- C8 counterexample: the filter builder does fail. A truthy non-string
text criterion — the number `5`, the boolean `true`, or the array
`["a","b"]` that Express's query parser produces for a repeated
`title` parameter — reaches `title.split(" ")` and raises a `TypeError`;
no predicate list and no parameter list are returned. -/
theorem jobFindAllFilterRaw_malformedTitle_counterexample :
    jobFindAllFilterRaw { title := some (TitleVal.prim (JSVal.num 5)), minSalary := none, hasEquity := none }
        = .error JsRuntimeError.typeError
    ∧ jobFindAllFilterRaw { title := some (TitleVal.prim (JSVal.bool true)), minSalary := none, hasEquity := none }
        = .error JsRuntimeError.typeError
    ∧ jobFindAllFilterRaw { title := some (TitleVal.strArray ["a", "b"]), minSalary := none, hasEquity := none }
        = .error JsRuntimeError.typeError :=
  ⟨rfl, rfl, rfl⟩

/-- C8 (amended): on every filter spec whose text criterion, when
present, is a string, the builder never fails — it returns exactly the
predicate and parameter lists of `jobFindAllFilter`, with absent or
malformed `minSalary`/`hasEquity` values treated as inactive — and a
spec with zero active criteria yields empty lists, so no `WHERE` clause
is emitted; but a truthy non-string text criterion (number, boolean
`true`, or an array from a repeated query parameter) makes the builder
fail with a `TypeError` instead of returning lists. -/
theorem jobFindAllFilterRaw_decision (q : FilterQueries) :
    jobFindAllFilterRaw { title := q.title.map (fun s => TitleVal.prim (JSVal.str s)),
                          minSalary := q.minSalary, hasEquity := q.hasEquity }
      = .ok (jobFindAllFilter q)
    ∧ (¬titleActive q → ¬minSalaryActive q → ¬hasEquityActive q →
        jobFindAllFilter q = ([], []) ∧ whereClause (jobFindAllFilter q).1 = "")
    ∧ (∀ t : TitleVal, (∀ s : String, t ≠ TitleVal.prim (JSVal.str s)) →
        titleTruthy t = true →
        jobFindAllFilterRaw { title := some t, minSalary := q.minSalary, hasEquity := q.hasEquity }
          = .error JsRuntimeError.typeError) := by
  refine ⟨?_, ?_, ?_⟩
  · cases hq : q.title with
    | none =>
        simp [jobFindAllFilterRaw, jobFindAllFilter, titleStep, titleTruthy, jsTruthy, hq]
    | some s =>
        by_cases hs : s = ""
        · simp [jobFindAllFilterRaw, jobFindAllFilter, titleStep, titleTruthy, jsTruthy, hq, hs]
        · simp [jobFindAllFilterRaw, jobFindAllFilter, titleStep, titleTruthy, jsTruthy, hq, hs]
  · intro h1 h2 h3
    unfold titleActive at h1
    unfold minSalaryActive at h2
    unfold hasEquityActive at h3
    have ht : q.title.getD "" = "" := not_ne_iff.mp h1
    have hm : q.minSalary.getD JSVal.null = JSVal.null := not_ne_iff.mp h2
    have hfilter : jobFindAllFilter q = ([], []) := by
      simp [jobFindAllFilter, titleStep, minSalaryStep, hasEquityStep, ht, hm, h3]
    refine ⟨hfilter, ?_⟩
    rw [hfilter]
    rfl
  · intro t ht htr
    cases t with
    | prim v =>
        cases v with
        | str s => exact absurd rfl (ht s)
        | num n => simp [jobFindAllFilterRaw, htr]
        | bool b => simp [jobFindAllFilterRaw, htr]
        | null => simp [jobFindAllFilterRaw, htr]
        | nan => simp [jobFindAllFilterRaw, htr]
    | strArray a => simp [jobFindAllFilterRaw, htr]

/-- Witness for C8's amended theorem: the spec's example
`{hasEquity: "false"}` succeeds with empty lists and no `WHERE` clause,
while the same spec with the malformed title `5` fails with a
`TypeError`. -/
theorem jobFindAllFilterRaw_decision_witness :
    jobFindAllFilterRaw { title := none, minSalary := none, hasEquity := some (JSVal.str "false") }
        = .ok (jobFindAllFilter { title := none, minSalary := none, hasEquity := some (JSVal.str "false") })
    ∧ jobFindAllFilter { title := none, minSalary := none, hasEquity := some (JSVal.str "false") }
        = ([], [])
    ∧ whereClause (jobFindAllFilter { title := none, minSalary := none, hasEquity := some (JSVal.str "false") }).1 = ""
    ∧ jobFindAllFilterRaw { title := some (TitleVal.prim (JSVal.num 5)), minSalary := none, hasEquity := some (JSVal.str "false") }
        = .error JsRuntimeError.typeError := by
  have h := jobFindAllFilterRaw_decision
    { title := none, minSalary := none, hasEquity := some (JSVal.str "false") }
  refine ⟨h.1, (h.2.1 (by decide) (by decide) (by decide)).1,
    (h.2.1 (by decide) (by decide) (by decide)).2, ?_⟩
  exact h.2.2 (TitleVal.prim (JSVal.num 5)) (by intro s hs; simp at hs) (by decide)

end Jobly
